import Mathlib

/-!
Verification development for the quaternion-to-2D-pointer tracking engine.

The definitions below are a shallow embedding, over the real numbers, of the
Python sources:
* `src/union_pygame.py` — class `QuaternionTo2DMotion` (the delta tracker);
* `src/Euler.py` — class `QuaternionToScreen` (absolute Euler projection);
* `src/comparing.py` — class `ImprovedQuaternionConverter` (the five
  projection strategies and the shared post-processing pipeline).

Floating-point arithmetic is idealised as exact real arithmetic; machine
integers are `ℤ`; Python `//` on integers is `Int.fdiv`; Python `int()` on a
float is truncation toward zero (`pytrunc` below); `deque(maxlen=n)` is a
list that evicts from the front when its length would exceed `n`.
-/

open Real Classical

noncomputable section

/-- A quaternion as four real components (w, x, y, z), exactly as the Python
sources pass them around. -/
@[ext]
structure Quat where
  w : ℝ
  x : ℝ
  y : ℝ
  z : ℝ

/-- Euclidean norm of a quaternion, `np.linalg.norm(q)` in the source. -/
def qnorm (q : Quat) : ℝ :=
  Real.sqrt (q.w * q.w + q.x * q.x + q.y * q.y + q.z * q.z)

/-- `_normalize_quaternion` from `union_pygame.py` lines 31-36: divide by the
Euclidean norm, returning the identity quaternion when the norm is exactly 0. -/
def normalize_quaternion (q : Quat) : Quat :=
  if qnorm q = 0 then ⟨1, 0, 0, 0⟩
  else ⟨q.w / qnorm q, q.x / qnorm q, q.y / qnorm q, q.z / qnorm q⟩

/-- `_quaternion_conjugate` from `union_pygame.py` lines 38-40. -/
def quaternion_conjugate (q : Quat) : Quat := ⟨q.w, -q.x, -q.y, -q.z⟩

/-- `_quaternion_multiply` from `union_pygame.py` lines 42-52 (Hamilton product). -/
def quaternion_multiply (a b : Quat) : Quat :=
  ⟨a.w * b.w - a.x * b.x - a.y * b.y - a.z * b.z,
   a.w * b.x + a.x * b.w + a.y * b.z - a.z * b.y,
   a.w * b.y - a.x * b.z + a.y * b.w + a.z * b.x,
   a.w * b.z + a.x * b.y - a.y * b.x + a.z * b.w⟩

/-- C-style `atan2`, the semantics of Python's `math.atan2`. -/
def atan2 (y x : ℝ) : ℝ :=
  if 0 < x then Real.arctan (y / x)
  else if x < 0 then
    (if 0 ≤ y then Real.arctan (y / x) + π else Real.arctan (y / x) - π)
  else
    (if 0 < y then π / 2 else if y < 0 then -(π / 2) else 0)

/-- Python's `math.copysign m s`: the magnitude of `m` carrying the sign of `s`
(with nonnegative `s` giving the positive sign, as for float `+0.0`). -/
def copysign (m s : ℝ) : ℝ := if s < 0 then -|m| else |m|

/-- Roll as computed by the (three syntactically identical) quaternion-to-Euler
conversions: `atan2(2(wx+yz), 1-2(x²+y²))`. -/
def rollOf (w x y z : ℝ) : ℝ :=
  atan2 (2 * (w * x + y * z)) (1 - 2 * (x * x + y * y))

/-- Pitch as computed by the quaternion-to-Euler conversions: `asin(2(wy-zx))`,
except that when `|2(wy-zx)| ≥ 1` the result is `copysign(π/2, 2(wy-zx))`. -/
def pitchOf (w x y z : ℝ) : ℝ :=
  let sinp := 2 * (w * y - z * x)
  if 1 ≤ |sinp| then copysign (π / 2) sinp else Real.arcsin sinp

/-- Yaw as computed by the quaternion-to-Euler conversions:
`atan2(2(wz+xy), 1-2(y²+z²))`. -/
def yawOf (w x y z : ℝ) : ℝ :=
  atan2 (2 * (w * z + x * y)) (1 - 2 * (y * y + z * z))

/-- `_quaternion_to_euler` from `union_pygame.py` lines 54-75 (also
`quaternion_to_euler` in `Euler.py` and `comparing.py`, which are identical). -/
def quaternion_to_euler (q : Quat) : ℝ × ℝ × ℝ :=
  (rollOf q.w q.x q.y q.z, pitchOf q.w q.x q.y q.z, yawOf q.w q.x q.y q.z)

/-- `_calculate_delta_quaternion` from `union_pygame.py` lines 77-82:
`normalize(current * conjugate(previous))`. -/
def calculate_delta_quaternion (current previous : Quat) : Quat :=
  normalize_quaternion (quaternion_multiply current (quaternion_conjugate previous))

/-- Python `int()` applied to a float: truncation toward zero. -/
def pytrunc (r : ℝ) : ℤ := if 0 ≤ r then ⌊r⌋ else ⌈r⌉

/-- `max lo (min hi v)`, the clamping idiom used throughout the sources. -/
def clampR (lo hi v : ℝ) : ℝ := max lo (min hi v)

/-- Appending to a `deque(maxlen=window)`: add at the right, evict from the
left whenever the length would exceed the capacity. -/
def pushDelta (window : ℕ) (buf : List (ℝ × ℝ)) (d : ℝ × ℝ) : List (ℝ × ℝ) :=
  let b := buf ++ [d]
  b.drop (b.length - window)

/-- Averaging of the delta buffer, `union_pygame.py` lines 116-120: the
componentwise mean when the buffer is nonempty, and `(0, 0)` otherwise. -/
def bufferAverage (buf : List (ℝ × ℝ)) : ℝ × ℝ :=
  if 0 < buf.length then
    ((buf.map Prod.fst).sum / buf.length, (buf.map Prod.snd).sum / buf.length)
  else (0, 0)

/-- Constructor parameters of `QuaternionTo2DMotion` (`union_pygame.py` lines
11-29).  The deadzone is the hard-coded `0.001` and is kept inline below. -/
structure MotionConfig where
  screen_width : ℤ
  screen_height : ℤ
  sensitivity : ℝ
  smoothing_window : ℕ

/-- Mutable instance state of `QuaternionTo2DMotion`: previous quaternion,
delta ring buffer, and the (float-valued) current screen position. -/
structure MotionState where
  prev_quaternion : Option Quat
  delta_buffer : List (ℝ × ℝ)
  screen_x : ℝ
  screen_y : ℝ

/-- Horizontal screen centre `screen_width // 2` (Python integer floor
division), as a real number. -/
def centerX (cfg : MotionConfig) : ℝ := ((Int.fdiv cfg.screen_width 2 : ℤ) : ℝ)

/-- Vertical screen centre `screen_height // 2`, as a real number. -/
def centerY (cfg : MotionConfig) : ℝ := ((Int.fdiv cfg.screen_height 2 : ℤ) : ℝ)

/-- The state established by `QuaternionTo2DMotion.__init__`: no previous
quaternion, empty delta buffer, position at the screen centre. -/
def initMotionState (cfg : MotionConfig) : MotionState :=
  ⟨none, [], centerX cfg, centerY cfg⟩

/-- `update_position` from `union_pygame.py` lines 84-133, returning the
`(int(x), int(y))` pair together with the updated instance state. -/
def update_position (cfg : MotionConfig) (s : MotionState) (q : Quat) :
    (ℤ × ℤ) × MotionState :=
  let current := normalize_quaternion q
  match s.prev_quaternion with
  | none =>
      ((pytrunc s.screen_x, pytrunc s.screen_y),
       { s with prev_quaternion := some current })
  | some prev =>
      let dq := calculate_delta_quaternion current prev
      let dpitch0 := pitchOf dq.w dq.x dq.y dq.z
      let dyaw0 := yawOf dq.w dq.x dq.y dq.z
      let dpitch := if |dpitch0| < 0.001 then 0 else dpitch0
      let dyaw := if |dyaw0| < 0.001 then 0 else dyaw0
      let delta_x := dyaw * cfg.sensitivity
      let delta_y := -dpitch * cfg.sensitivity
      let buf := pushDelta cfg.smoothing_window s.delta_buffer (delta_x, delta_y)
      let a := bufferAverage buf
      let nx := clampR 0 ((cfg.screen_width : ℝ) - 1) (s.screen_x + a.1)
      let ny := clampR 0 ((cfg.screen_height : ℝ) - 1) (s.screen_y + a.2)
      ((pytrunc nx, pytrunc ny), ⟨some current, buf, nx, ny⟩)

/-- `reset_position` from `union_pygame.py` lines 135-140: recentre the
position, forget the previous quaternion, clear the delta buffer. -/
def reset_position (cfg : MotionConfig) (_s : MotionState) : MotionState :=
  ⟨none, [], centerX cfg, centerY cfg⟩

/-- Feeding the same quaternion `n` consecutive times into a freshly
constructed tracker. -/
def feedSame (cfg : MotionConfig) (q : Quat) : ℕ → MotionState
  | 0 => initMotionState cfg
  | n + 1 => (update_position cfg (feedSame cfg q n) q).2

/-- Constructor parameters of `QuaternionToScreen` (`Euler.py` lines 10-23).
Width and height are used in float arithmetic throughout, the dead zone is the
hard-coded `1` and the smoothing factor the hard-coded `0.2`. -/
structure ScreenConfig where
  screen_width : ℝ
  screen_height : ℝ
  max_tilt_degrees : ℝ

/-- True-division screen centre, `screen_width / 2`. -/
def ScreenConfig.center_x (c : ScreenConfig) : ℝ := c.screen_width / 2

/-- True-division screen centre, `screen_height / 2`. -/
def ScreenConfig.center_y (c : ScreenConfig) : ℝ := c.screen_height / 2

/-- `math.radians(max_tilt_degrees)`. -/
def ScreenConfig.max_tilt_radians (c : ScreenConfig) : ℝ :=
  c.max_tilt_degrees * π / 180

/-- `screen_width / (2 * max_tilt_radians)`. -/
def ScreenConfig.sensitivity_x (c : ScreenConfig) : ℝ :=
  c.screen_width / (2 * c.max_tilt_radians)

/-- `screen_height / (2 * max_tilt_radians)`. -/
def ScreenConfig.sensitivity_y (c : ScreenConfig) : ℝ :=
  c.screen_height / (2 * c.max_tilt_radians)

/-- `quaternion_to_screen_coords` from `Euler.py` lines 42-68.  `prev` is the
smoothing state `(prev_x, prev_y)`; the result pairs the returned point with
the updated smoothing state (the source stores the smoothed, pre-clamp value). -/
def quaternion_to_screen_coords (c : ScreenConfig) (prev : ℝ × ℝ)
    (w x y z : ℝ) (use_smoothing : Bool) : (ℝ × ℝ) × (ℝ × ℝ) :=
  let roll := rollOf w x y z
  let pitch := pitchOf w x y z
  let roll_clamped := max (-c.max_tilt_radians) (min c.max_tilt_radians roll)
  let sx0 := c.center_x + roll_clamped * c.sensitivity_x
  let pitch_clamped := max (-c.max_tilt_radians) (min c.max_tilt_radians pitch)
  let sy0 := c.center_y - pitch_clamped * c.sensitivity_y
  let dx := sx0 - c.center_x
  let dy := sy0 - c.center_y
  let dist := Real.sqrt (dx * dx + dy * dy)
  let sx1 := if dist < 1 then c.center_x else sx0
  let sy1 := if dist < 1 then c.center_y else sy0
  let sx2 := if use_smoothing then 0.2 * sx1 + (1 - 0.2) * prev.1 else sx1
  let sy2 := if use_smoothing then 0.2 * sy1 + (1 - 0.2) * prev.2 else sy1
  let prev' := if use_smoothing then (sx2, sy2) else prev
  ((clampR 0 c.screen_width sx2, clampR 0 c.screen_height sy2), prev')

/-- Constructor parameters of `ImprovedQuaternionConverter` (`comparing.py`
lines 14-29).  The dead zone is the hard-coded `10` and the smoothing factor
the hard-coded `0.7`. -/
structure CompareConfig where
  screen_width : ℝ
  screen_height : ℝ
  max_tilt_degrees : ℝ

/-- True-division screen centre, `screen_width / 2`. -/
def CompareConfig.center_x (c : CompareConfig) : ℝ := c.screen_width / 2

/-- True-division screen centre, `screen_height / 2`. -/
def CompareConfig.center_y (c : CompareConfig) : ℝ := c.screen_height / 2

/-- `math.radians(max_tilt_degrees)`. -/
def CompareConfig.max_tilt_radians (c : CompareConfig) : ℝ :=
  c.max_tilt_degrees * π / 180

/-- `screen_width / (2 * max_tilt_radians)`. -/
def CompareConfig.sensitivity_x (c : CompareConfig) : ℝ :=
  c.screen_width / (2 * c.max_tilt_radians)

/-- `screen_height / (2 * max_tilt_radians)`. -/
def CompareConfig.sensitivity_y (c : CompareConfig) : ℝ :=
  c.screen_height / (2 * c.max_tilt_radians)

/-- The dead-zone and smoothing stages of `apply_post_processing`
(`comparing.py` lines 138-155), i.e. everything before the final clamp.
Returns the pre-clamp point together with the updated smoothing state. -/
def post_raw (c : CompareConfig) (prev : ℝ × ℝ) (sx sy : ℝ)
    (use_smoothing : Bool) : (ℝ × ℝ) × (ℝ × ℝ) :=
  let dx := sx - c.center_x
  let dy := sy - c.center_y
  let dist := Real.sqrt (dx * dx + dy * dy)
  let sx1 := if dist < 10 then c.center_x else sx
  let sy1 := if dist < 10 then c.center_y else sy
  let sx2 := if use_smoothing then 0.7 * sx1 + (1 - 0.7) * prev.1 else sx1
  let sy2 := if use_smoothing then 0.7 * sy1 + (1 - 0.7) * prev.2 else sy1
  let prev' := if use_smoothing then (sx2, sy2) else prev
  ((sx2, sy2), prev')

/-- `apply_post_processing` from `comparing.py` lines 138-160: dead zone,
optional smoothing, then the always-applied clamp to `[0, width] × [0, height]`. -/
def apply_post_processing (c : CompareConfig) (prev : ℝ × ℝ) (sx sy : ℝ)
    (use_smoothing : Bool) : (ℝ × ℝ) × (ℝ × ℝ) :=
  let r := post_raw c prev sx sy use_smoothing
  ((clampR 0 c.screen_width r.1.1, clampR 0 c.screen_height r.1.2), r.2)

/-- The raw displacement candidate of `euler_method` (`comparing.py` lines
32-43): the screen point computed from the tilt-clamped roll and pitch, before
`apply_post_processing`. -/
def euler_raw (c : CompareConfig) (w x y z : ℝ) : ℝ × ℝ :=
  let roll := rollOf w x y z
  let pitch := pitchOf w x y z
  let roll_clamped := max (-c.max_tilt_radians) (min c.max_tilt_radians roll)
  let pitch_clamped := max (-c.max_tilt_radians) (min c.max_tilt_radians pitch)
  (c.center_x + roll_clamped * c.sensitivity_x,
   c.center_y - pitch_clamped * c.sensitivity_y)

/-- `euler_method` from `comparing.py` lines 32-43. -/
def euler_method (c : CompareConfig) (prev : ℝ × ℝ) (w x y z : ℝ)
    (use_smoothing : Bool) : (ℝ × ℝ) × (ℝ × ℝ) :=
  let r := euler_raw c w x y z
  apply_post_processing c prev r.1 r.2 use_smoothing

/-- The raw displacement candidate of `spherical_method` (`comparing.py` lines
75-93): azimuth/elevation, tilt-clamped and scaled, before
`apply_post_processing`. -/
def spherical_raw (c : CompareConfig) (w x y z : ℝ) : ℝ × ℝ :=
  let azimuth := atan2 (2 * (w * z + x * y)) (1 - 2 * (y * y + z * z))
  let sin_elevation := 2 * (w * y - z * x)
  let elevation :=
    if 1 ≤ |sin_elevation| then copysign (π / 2) sin_elevation
    else Real.arcsin sin_elevation
  let azimuth_clamped := max (-c.max_tilt_radians) (min c.max_tilt_radians azimuth)
  let elevation_clamped := max (-c.max_tilt_radians) (min c.max_tilt_radians elevation)
  (c.center_x + azimuth_clamped * c.sensitivity_x,
   c.center_y - elevation_clamped * c.sensitivity_y)

/-- `spherical_method` from `comparing.py` lines 75-93. -/
def spherical_method (c : CompareConfig) (prev : ℝ × ℝ) (w x y z : ℝ)
    (use_smoothing : Bool) : (ℝ × ℝ) × (ℝ × ℝ) :=
  let r := spherical_raw c w x y z
  apply_post_processing c prev r.1 r.2 use_smoothing

/-- `hybrid_method` from `comparing.py` lines 96-108: blend the
(post-processed, smoothing-disabled) Euler and spherical results with weights
0.8 and 0.2, then post-process the blend. -/
def hybrid_method (c : CompareConfig) (prev : ℝ × ℝ) (w x y z : ℝ)
    (use_smoothing : Bool) : (ℝ × ℝ) × (ℝ × ℝ) :=
  let e := (euler_method c prev w x y z false).1
  let s := (spherical_method c prev w x y z false).1
  let bx := e.1 * 0.8 + s.1 * 0.2
  let bY := e.2 * 0.8 + s.2 * 0.2
  apply_post_processing c prev bx bY use_smoothing

/-- Hybrid blend as the claim words it: the blended Euler and spherical values
are each strategy's raw displacement candidate computed before the
post-processor is applied.  Used to compare the claim against `hybrid_method`. -/
def hybrid_of_raw_claim (c : CompareConfig) (prev : ℝ × ℝ) (w x y z : ℝ)
    (use_smoothing : Bool) : (ℝ × ℝ) × (ℝ × ℝ) :=
  let e := euler_raw c w x y z
  let s := spherical_raw c w x y z
  let bx := e.1 * 0.8 + s.1 * 0.2
  let bY := e.2 * 0.8 + s.2 * 0.2
  apply_post_processing c prev bx bY use_smoothing

/-- The pre-deadzone screen point of `quaternion_to_screen_coords`
(`Euler.py` lines 43-49): tilt-clamped roll and pitch scaled to pixels. -/
def screen_raw (c : ScreenConfig) (w x y z : ℝ) : ℝ × ℝ :=
  let roll := rollOf w x y z
  let pitch := pitchOf w x y z
  let roll_clamped := max (-c.max_tilt_radians) (min c.max_tilt_radians roll)
  let pitch_clamped := max (-c.max_tilt_radians) (min c.max_tilt_radians pitch)
  (c.center_x + roll_clamped * c.sensitivity_x,
   c.center_y - pitch_clamped * c.sensitivity_y)

/-- The configuration of spec scenarios 1 and 2: an 800×600 screen with 45°
maximum tilt (`QuaternionToScreen(screen_width=800, screen_height=600)`). -/
def euler800 : ScreenConfig := ⟨800, 600, 45⟩

/-- The default `ImprovedQuaternionConverter()` configuration: 100×100 screen,
45° maximum tilt. -/
def cmp100 : CompareConfig := ⟨100, 100, 45⟩

/-- A concrete tracker configuration: 1920×1080 screen, sensitivity 100,
smoothing window 5. -/
def cfgZ : MotionConfig := ⟨1920, 1080, 100, 5⟩

/-- State after feeding the identity quaternion to a fresh `cfgZ` tracker. -/
def runZ1 : MotionState := (update_position cfgZ (initMotionState cfgZ) ⟨1, 0, 0, 0⟩).2

/-- State after then feeding the 90°-yaw quaternion `(1,0,0,1)`. -/
def runZ2 : MotionState := (update_position cfgZ runZ1 ⟨1, 0, 0, 1⟩).2

/-- State after feeding `(1,0,0,1)` a second consecutive time. -/
def runZ3 : MotionState := (update_position cfgZ runZ2 ⟨1, 0, 0, 1⟩).2

/-- A concrete tracker configuration with a small 10×10 screen, sensitivity
100, smoothing window 5: one large delta pushes the raw position past the
right screen edge. -/
def cfgB : MotionConfig := ⟨10, 10, 100, 5⟩

/-- State after feeding the identity quaternion to a fresh `cfgB` tracker. -/
def runB1 : MotionState := (update_position cfgB (initMotionState cfgB) ⟨1, 0, 0, 0⟩).2

/-! ### Basic quaternion-algebra lemmas -/

lemma qnorm_nonneg (q : Quat) : 0 ≤ qnorm q := Real.sqrt_nonneg _

lemma qnorm_sq (q : Quat) :
    qnorm q * qnorm q = q.w * q.w + q.x * q.x + q.y * q.y + q.z * q.z :=
  Real.mul_self_sqrt
    (by nlinarith [mul_self_nonneg q.w, mul_self_nonneg q.x,
      mul_self_nonneg q.y, mul_self_nonneg q.z])

lemma qnorm_id : qnorm ⟨1, 0, 0, 0⟩ = 1 := by
  simp [qnorm]

lemma qnorm_zero_quat : qnorm ⟨0, 0, 0, 0⟩ = 0 := by
  simp [qnorm]

lemma normalize_id : normalize_quaternion ⟨1, 0, 0, 0⟩ = ⟨1, 0, 0, 0⟩ := by
  rw [normalize_quaternion, if_neg (by rw [qnorm_id]; norm_num), qnorm_id]
  norm_num

lemma qnorm_normalize (q : Quat) : qnorm (normalize_quaternion q) = 1 := by
  rw [normalize_quaternion]
  split_ifs with h
  · exact qnorm_id
  · have hn : 0 < qnorm q := (qnorm_nonneg q).lt_of_ne (Ne.symm h)
    have hs : q.w / qnorm q * (q.w / qnorm q) + q.x / qnorm q * (q.x / qnorm q) +
        q.y / qnorm q * (q.y / qnorm q) + q.z / qnorm q * (q.z / qnorm q) = 1 := by
      have h2 := qnorm_sq q
      field_simp
      linarith [h2]
    show Real.sqrt _ = 1
    rw [show (⟨q.w / qnorm q, q.x / qnorm q, q.y / qnorm q, q.z / qnorm q⟩ : Quat).w
        = q.w / qnorm q from rfl]
    rw [show (⟨q.w / qnorm q, q.x / qnorm q, q.y / qnorm q, q.z / qnorm q⟩ : Quat).x
        = q.x / qnorm q from rfl]
    rw [show (⟨q.w / qnorm q, q.x / qnorm q, q.y / qnorm q, q.z / qnorm q⟩ : Quat).y
        = q.y / qnorm q from rfl]
    rw [show (⟨q.w / qnorm q, q.x / qnorm q, q.y / qnorm q, q.z / qnorm q⟩ : Quat).z
        = q.z / qnorm q from rfl]
    rw [hs, Real.sqrt_one]

lemma mul_conj_self (q : Quat)
    (h : q.w * q.w + q.x * q.x + q.y * q.y + q.z * q.z = 1) :
    quaternion_multiply q (quaternion_conjugate q) = ⟨1, 0, 0, 0⟩ := by
  rw [quaternion_multiply, quaternion_conjugate]
  refine Quat.ext ?_ ?_ ?_ ?_ <;> simp only
  · nlinarith [h]
  · ring
  · ring
  · ring

lemma delta_of_same (q : Quat) :
    calculate_delta_quaternion (normalize_quaternion q) (normalize_quaternion q)
      = ⟨1, 0, 0, 0⟩ := by
  rw [calculate_delta_quaternion,
    mul_conj_self (normalize_quaternion q) (by
      have h2 := qnorm_sq (normalize_quaternion q)
      rw [qnorm_normalize q] at h2
      linarith),
    normalize_id]

/-! ### Euler decomposition at the identity quaternion -/

lemma atan2_zero_one : atan2 0 1 = 0 := by
  rw [atan2, if_pos (by norm_num : (0:ℝ) < 1)]
  norm_num

lemma rollOf_id : rollOf 1 0 0 0 = 0 := by
  have : rollOf 1 0 0 0 = atan2 0 1 := by
    rw [rollOf]; norm_num
  rw [this, atan2_zero_one]

lemma pitchOf_id : pitchOf 1 0 0 0 = 0 := by
  rw [pitchOf]
  norm_num

lemma yawOf_id : yawOf 1 0 0 0 = 0 := by
  have : yawOf 1 0 0 0 = atan2 0 1 := by
    rw [yawOf]; norm_num
  rw [this, atan2_zero_one]

/-! ### Integer truncation and clamping -/

lemma pytrunc_intCast (k : ℤ) : pytrunc (k : ℝ) = k := by
  rw [pytrunc]
  split_ifs
  · exact Int.floor_intCast k
  · exact Int.ceil_intCast k

lemma clampR_of_mem {lo hi v : ℝ} (h1 : lo ≤ v) (h2 : v ≤ hi) :
    clampR lo hi v = v := by
  rw [clampR, min_eq_right h2, max_eq_right h1]

lemma clampR_mem {lo hi v : ℝ} (h : lo ≤ hi) :
    lo ≤ clampR lo hi v ∧ clampR lo hi v ≤ hi := by
  constructor
  · exact le_max_left _ _
  · rw [clampR, max_le_iff]
    exact ⟨h, min_le_left _ _⟩

lemma clampR_of_gt {lo hi v : ℝ} (hlo : lo ≤ hi) (h : hi < v) :
    clampR lo hi v = hi := by
  rw [clampR, min_eq_left h.le, max_eq_right hlo]

lemma clampR_of_lt {lo hi v : ℝ} (hlo : lo ≤ hi) (h : v < lo) :
    clampR lo hi v = lo := by
  rw [clampR, min_eq_right (h.le.trans hlo), max_eq_left h.le]

/-! ### Claim C4 — `normalize` never fails, never divides by zero -/

/-- C4: `normalize` applied to the exactly-zero quaternion returns exactly the
identity quaternion `(1,0,0,0)`, and applied to any quaternion of nonzero norm
it divides each component by the Euclidean norm. -/
theorem C4_normalize_total :
    normalize_quaternion ⟨0, 0, 0, 0⟩ = ⟨1, 0, 0, 0⟩ ∧
    ∀ q : Quat, qnorm q ≠ 0 →
      normalize_quaternion q =
        ⟨q.w / qnorm q, q.x / qnorm q, q.y / qnorm q, q.z / qnorm q⟩ := by
  constructor
  · rw [normalize_quaternion, if_pos qnorm_zero_quat]
  · intro q h
    rw [normalize_quaternion, if_neg h]

theorem C4_normalize_total_witness :
    qnorm ⟨2, 0, 0, 0⟩ ≠ 0 ∧
    normalize_quaternion ⟨2, 0, 0, 0⟩ =
      ⟨2 / qnorm ⟨2, 0, 0, 0⟩, 0 / qnorm ⟨2, 0, 0, 0⟩,
       0 / qnorm ⟨2, 0, 0, 0⟩, 0 / qnorm ⟨2, 0, 0, 0⟩⟩ := by
  have h : qnorm (⟨2, 0, 0, 0⟩ : Quat) ≠ 0 := by
    have : qnorm (⟨2, 0, 0, 0⟩ : Quat) = 2 := by
      rw [qnorm]
      norm_num
      rw [show (4:ℝ) = 2 ^ 2 by norm_num, Real.sqrt_sq (by norm_num : (0:ℝ) ≤ 2)]
    rw [this]; norm_num
  exact ⟨h, C4_normalize_total.2 _ h⟩

/-! ### Claim C9 — `multiply(q, conjugate(q))` is the identity for unit `q` -/

/-- C9: for every unit quaternion `q` (Euclidean norm exactly 1),
`multiply(q, conjugate(q))` equals the identity quaternion `(1,0,0,0)` exactly,
under exact real arithmetic. -/
theorem C9_mul_conjugate_identity (q : Quat) (h : qnorm q = 1) :
    quaternion_multiply q (quaternion_conjugate q) = ⟨1, 0, 0, 0⟩ := by
  apply mul_conj_self
  have h2 := qnorm_sq q
  rw [h] at h2
  linarith

theorem C9_mul_conjugate_identity_witness :
    qnorm ⟨1, 0, 0, 0⟩ = 1 ∧
    quaternion_multiply ⟨1, 0, 0, 0⟩ (quaternion_conjugate ⟨1, 0, 0, 0⟩)
      = ⟨1, 0, 0, 0⟩ :=
  ⟨qnorm_id, C9_mul_conjugate_identity _ qnorm_id⟩

/-! ### Claim C8 — sign-preserving clamp of the pitch at the singularity -/

/-- C8: whenever `|2(wy−zx)| ≥ 1` the pitch of the quaternion-to-Euler
conversion is `±π/2` carrying the sign of `2(wy−zx)`, and `asin` is applied
only when `|2(wy−zx)| < 1`, so the conversion is total. -/
theorem C8_pitch_singularity_clamp (w x y z : ℝ) :
    (1 ≤ 2 * (w * y - z * x) → pitchOf w x y z = π / 2) ∧
    (2 * (w * y - z * x) ≤ -1 → pitchOf w x y z = -(π / 2)) ∧
    (|2 * (w * y - z * x)| < 1 →
      pitchOf w x y z = Real.arcsin (2 * (w * y - z * x))) := by
  refine ⟨?_, ?_, ?_⟩
  · intro h
    have habs : 1 ≤ |2 * (w * y - z * x)| := le_trans h (le_abs_self _)
    simp only [pitchOf]
    rw [if_pos habs, copysign, if_neg (by push_neg; linarith),
      abs_of_pos (by positivity : (0:ℝ) < π / 2)]
  · intro h
    have habs : 1 ≤ |2 * (w * y - z * x)| := le_abs.2 (Or.inr (by linarith))
    simp only [pitchOf]
    rw [if_pos habs, copysign, if_pos (by linarith),
      abs_of_pos (by positivity : (0:ℝ) < π / 2)]
  · intro h
    simp only [pitchOf]
    rw [if_neg (by push_neg; exact h)]

theorem C8_pitch_singularity_clamp_witness :
    (1:ℝ) ≤ 2 * (1 * 1 - 0 * 0) ∧ pitchOf 1 0 1 0 = π / 2 :=
  ⟨by norm_num, (C8_pitch_singularity_clamp 1 0 1 0).1 (by norm_num)⟩

/-! ### Claim C3 — reset restores the initial state -/

/-- C3: `reset_position` restores the position to the screen centre, clears
the previous-orientation reference and the delta buffer (i.e. produces exactly
the freshly-constructed state), is idempotent, and after a reset the next
sample behaves as a very first sample: it returns the centre position and only
records the reference orientation, producing no motion. -/
theorem C3_reset_behaviour (cfg : MotionConfig) (s t : MotionState) (q : Quat) :
    reset_position cfg s = initMotionState cfg ∧
    reset_position cfg (reset_position cfg t) = reset_position cfg t ∧
    (update_position cfg (reset_position cfg s) q).1 =
      (Int.fdiv cfg.screen_width 2, Int.fdiv cfg.screen_height 2) ∧
    (update_position cfg (reset_position cfg s) q).2 =
      ⟨some (normalize_quaternion q), [], centerX cfg, centerY cfg⟩ := by
  refine ⟨rfl, rfl, ?_, rfl⟩
  show (pytrunc (centerX cfg), pytrunc (centerY cfg)) = _
  rw [centerX, centerY, pytrunc_intCast, pytrunc_intCast]

/-! ### Claim C10 — the returned point is the truncation of un-truncated state -/

/-- C10: `update_position` returns the toward-zero integer truncation of the
internal real-valued position, while the stored state keeps the un-truncated
position: unchanged on a first sample, and otherwise the exact clamped
accumulation `clamp(pos + average(buffer))`, so no truncation error is ever
written back into the state. -/
theorem C10_output_truncates_untruncated_state
    (cfg : MotionConfig) (s : MotionState) (q : Quat) :
    (update_position cfg s q).1 =
      (pytrunc (update_position cfg s q).2.screen_x,
       pytrunc (update_position cfg s q).2.screen_y) ∧
    (s.prev_quaternion = none →
      (update_position cfg s q).2.screen_x = s.screen_x ∧
      (update_position cfg s q).2.screen_y = s.screen_y) ∧
    (∀ p, s.prev_quaternion = some p →
      (update_position cfg s q).2.screen_x =
        clampR 0 ((cfg.screen_width : ℝ) - 1)
          (s.screen_x + (bufferAverage (update_position cfg s q).2.delta_buffer).1) ∧
      (update_position cfg s q).2.screen_y =
        clampR 0 ((cfg.screen_height : ℝ) - 1)
          (s.screen_y + (bufferAverage (update_position cfg s q).2.delta_buffer).2)) := by
  cases h : s.prev_quaternion with
  | none =>
      refine ⟨?_, fun _ => ?_, ?_⟩
      · simp [update_position, h]
      · constructor <;> simp [update_position, h]
      · intro p hp
        cases hp
  | some p =>
      refine ⟨?_, fun hn => ?_, ?_⟩
      · simp [update_position, h]
      · cases hn
      · intro p' hp
        constructor <;> simp [update_position, h]

theorem C10_output_truncates_untruncated_state_witness :
    (initMotionState ⟨1920, 1080, 500, 5⟩).prev_quaternion = none ∧
    ((update_position ⟨1920, 1080, 500, 5⟩ (initMotionState ⟨1920, 1080, 500, 5⟩)
        ⟨1, 0, 0, 0⟩).2.screen_x = (initMotionState ⟨1920, 1080, 500, 5⟩).screen_x ∧
     (update_position ⟨1920, 1080, 500, 5⟩ (initMotionState ⟨1920, 1080, 500, 5⟩)
        ⟨1, 0, 0, 0⟩).2.screen_y = (initMotionState ⟨1920, 1080, 500, 5⟩).screen_y) :=
  ⟨rfl, (C10_output_truncates_untruncated_state ⟨1920, 1080, 500, 5⟩
    (initMotionState ⟨1920, 1080, 500, 5⟩) ⟨1, 0, 0, 0⟩).2.1 rfl⟩

/-! ### Buffer and clamping lemmas for the delta tracker -/

lemma list_sum_zero {l : List ℝ} (h : ∀ a ∈ l, a = 0) : l.sum = 0 := by
  induction l with
  | nil => simp
  | cons a t ih =>
      rw [List.sum_cons, h a (by simp), ih (fun b hb => h b (by simp [hb])), add_zero]

lemma bufferAverage_zero (buf : List (ℝ × ℝ))
    (h : ∀ d ∈ buf, d = ((0:ℝ), (0:ℝ))) : bufferAverage buf = (0, 0) := by
  rw [bufferAverage]
  split_ifs with hl
  · have h1 : (buf.map Prod.fst).sum = 0 := list_sum_zero (by
      intro a ha
      obtain ⟨d, hd, rfl⟩ := List.mem_map.1 ha
      rw [h d hd])
    have h2 : (buf.map Prod.snd).sum = 0 := list_sum_zero (by
      intro a ha
      obtain ⟨d, hd, rfl⟩ := List.mem_map.1 ha
      rw [h d hd])
    rw [h1, h2]
    norm_num
  · rfl

lemma mem_pushDelta {window : ℕ} {buf : List (ℝ × ℝ)} {d e : ℝ × ℝ}
    (he : e ∈ pushDelta window buf d) : e ∈ buf ∨ e = d := by
  simp only [pushDelta] at he
  have h1 : e ∈ buf ++ [d] := List.mem_of_mem_drop he
  rcases List.mem_append.1 h1 with h | h
  · exact Or.inl h
  · exact Or.inr (List.mem_singleton.1 h)

lemma clamp_half (W : ℤ) (hW : 0 ≤ W) :
    clampR 0 ((W : ℝ) - 1) ((Int.fdiv W 2 : ℤ) : ℝ) = ((Int.fdiv W 2 : ℤ) : ℝ) := by
  rw [Int.fdiv_eq_ediv _ (by norm_num : (0:ℤ) ≤ 2)]
  rcases (by omega : W = 0 ∨ 1 ≤ W) with h0 | h1
  · subst h0
    norm_num [clampR]
  · have ha : (0:ℝ) ≤ ((W / 2 : ℤ) : ℝ) := by
      exact_mod_cast Int.ediv_nonneg hW (by norm_num)
    have hb : ((W / 2 : ℤ) : ℝ) ≤ (W : ℝ) - 1 := by
      have : (W / 2 : ℤ) ≤ W - 1 := by omega
      calc ((W / 2 : ℤ) : ℝ) ≤ ((W - 1 : ℤ) : ℝ) := by exact_mod_cast this
        _ = (W : ℝ) - 1 := by push_cast; ring
    exact clampR_of_mem ha hb

/-! ### The repeated-sample step of the delta tracker -/

lemma update_same_step (cfg : MotionConfig) (hW : 0 ≤ cfg.screen_width)
    (hH : 0 ≤ cfg.screen_height) (q : Quat) (s : MotionState)
    (hprev : s.prev_quaternion = some (normalize_quaternion q))
    (hbuf : ∀ d ∈ s.delta_buffer, d = ((0:ℝ), (0:ℝ)))
    (hx : s.screen_x = centerX cfg) (hy : s.screen_y = centerY cfg) :
    (update_position cfg s q).2.prev_quaternion = some (normalize_quaternion q) ∧
    (∀ d ∈ (update_position cfg s q).2.delta_buffer, d = ((0:ℝ), (0:ℝ))) ∧
    (update_position cfg s q).2.screen_x = centerX cfg ∧
    (update_position cfg s q).2.screen_y = centerY cfg := by
  obtain ⟨pq, buf, sx, sy⟩ := s
  simp only at hprev hbuf hx hy
  subst hprev hx hy
  have hdq : calculate_delta_quaternion (normalize_quaternion q) (normalize_quaternion q)
      = ⟨1, 0, 0, 0⟩ := delta_of_same q
  have hzero : ∀ d ∈ pushDelta cfg.smoothing_window buf ((0:ℝ), (0:ℝ)),
      d = ((0:ℝ), (0:ℝ)) := fun d hd => (mem_pushDelta hd).elim (hbuf d) id
  have havg : bufferAverage (pushDelta cfg.smoothing_window buf ((0:ℝ), (0:ℝ)))
      = (0, 0) := bufferAverage_zero _ hzero
  simp only [update_position, hdq, pitchOf_id, yawOf_id, ite_self, zero_mul, neg_zero]
  refine ⟨trivial, hzero, ?_, ?_⟩
  · rw [havg]
    show clampR 0 ((cfg.screen_width : ℝ) - 1) (centerX cfg + 0) = centerX cfg
    rw [add_zero, centerX]
    exact clamp_half _ hW
  · rw [havg]
    show clampR 0 ((cfg.screen_height : ℝ) - 1) (centerY cfg + 0) = centerY cfg
    rw [add_zero, centerY]
    exact clamp_half _ hH

/-- The invariant reached after `n ≥ 1` identical samples: reference recorded,
all buffered deltas zero, position still at the centre. -/
lemma feedSame_invariant (cfg : MotionConfig) (hW : 0 ≤ cfg.screen_width)
    (hH : 0 ≤ cfg.screen_height) (q : Quat) :
    ∀ n, 1 ≤ n →
      (feedSame cfg q n).prev_quaternion = some (normalize_quaternion q) ∧
      (∀ d ∈ (feedSame cfg q n).delta_buffer, d = ((0:ℝ), (0:ℝ))) ∧
      (feedSame cfg q n).screen_x = centerX cfg ∧
      (feedSame cfg q n).screen_y = centerY cfg := by
  intro n hn
  induction n with
  | zero => omega
  | succ m ih =>
      rcases (by omega : m = 0 ∨ 1 ≤ m) with h0 | h1
      · subst h0
        refine ⟨rfl, ?_, rfl, rfl⟩
        intro d hd
        simp [feedSame, initMotionState, update_position] at hd
      · have IH := ih h1
        exact update_same_step cfg hW hH q _ IH.1 IH.2.1 IH.2.2.1 IH.2.2.2

/-! ### Claim C1 — identical consecutive samples produce no motion -/

/-- C1: feeding the same quaternion `q` into a fresh `QuaternionTo2DMotion`
`n ≥ 2` consecutive times leaves the position identical to the position after
sample 1 (the screen centre), and every delta recorded after the first sample
is exactly `(0, 0)` — in particular the second identical sample yields zero
Δx and Δy. -/
theorem C1_identical_samples_no_motion (cfg : MotionConfig) (q : Quat) (n : ℕ)
    (hW : 0 ≤ cfg.screen_width) (hH : 0 ≤ cfg.screen_height) (hn : 2 ≤ n) :
    (feedSame cfg q n).screen_x = (feedSame cfg q 1).screen_x ∧
    (feedSame cfg q n).screen_y = (feedSame cfg q 1).screen_y ∧
    ∀ d ∈ (feedSame cfg q n).delta_buffer, d = ((0:ℝ), (0:ℝ)) := by
  have h1 := feedSame_invariant cfg hW hH q 1 le_rfl
  have h2 := feedSame_invariant cfg hW hH q n (by omega)
  exact ⟨by rw [h2.2.2.1, h1.2.2.1], by rw [h2.2.2.2, h1.2.2.2], h2.2.1⟩

theorem C1_identical_samples_no_motion_witness :
    (0:ℤ) ≤ 1920 ∧ (0:ℤ) ≤ 1080 ∧ 2 ≤ 2 ∧
    ((feedSame ⟨1920, 1080, 500, 5⟩ ⟨1, 0, 0, 0⟩ 2).screen_x =
        (feedSame ⟨1920, 1080, 500, 5⟩ ⟨1, 0, 0, 0⟩ 1).screen_x ∧
     (feedSame ⟨1920, 1080, 500, 5⟩ ⟨1, 0, 0, 0⟩ 2).screen_y =
        (feedSame ⟨1920, 1080, 500, 5⟩ ⟨1, 0, 0, 0⟩ 1).screen_y ∧
     ∀ d ∈ (feedSame ⟨1920, 1080, 500, 5⟩ ⟨1, 0, 0, 0⟩ 2).delta_buffer,
        d = ((0:ℝ), (0:ℝ))) :=
  ⟨by norm_num, by norm_num, le_rfl,
    C1_identical_samples_no_motion ⟨1920, 1080, 500, 5⟩ ⟨1, 0, 0, 0⟩ 2
      (by norm_num) (by norm_num) le_rfl⟩

/-! ### Evaluation lemmas for concrete tracker runs -/

lemma normalize_of_unit {q : Quat} (h : qnorm q = 1) :
    normalize_quaternion q = q := by
  rw [normalize_quaternion, if_neg (by rw [h]; norm_num), h]
  refine Quat.ext ?_ ?_ ?_ ?_ <;> simp

lemma qnorm_yaw : qnorm ⟨1, 0, 0, 1⟩ = Real.sqrt 2 := by
  rw [qnorm]
  norm_num

lemma normalize_yaw :
    normalize_quaternion ⟨1, 0, 0, 1⟩ =
      ⟨1 / Real.sqrt 2, 0, 0, 1 / Real.sqrt 2⟩ := by
  rw [normalize_quaternion, if_neg (by rw [qnorm_yaw]; positivity), qnorm_yaw]
  refine Quat.ext ?_ ?_ ?_ ?_ <;> simp

lemma inv_sqrt2_sq : 1 / Real.sqrt 2 * (1 / Real.sqrt 2) = 1 / 2 := by
  rw [div_mul_div_comm, one_mul, Real.mul_self_sqrt (by norm_num : (0:ℝ) ≤ 2)]

lemma yaw_quat_pitch : pitchOf (1 / Real.sqrt 2) 0 0 (1 / Real.sqrt 2) = 0 := by
  rw [pitchOf]
  norm_num

lemma atan2_one_zero : atan2 1 0 = π / 2 := by
  rw [atan2]
  norm_num

lemma yaw_quat_yaw : yawOf (1 / Real.sqrt 2) 0 0 (1 / Real.sqrt 2) = π / 2 := by
  rw [yawOf,
    show 2 * (1 / Real.sqrt 2 * (1 / Real.sqrt 2) + 0 * 0) = (1:ℝ) by
      rw [inv_sqrt2_sq]; norm_num,
    show 1 - 2 * ((0:ℝ) * 0 + 1 / Real.sqrt 2 * (1 / Real.sqrt 2)) = (0:ℝ) by
      rw [inv_sqrt2_sq]; norm_num]
  exact atan2_one_zero

lemma delta_from_id (q : Quat) :
    calculate_delta_quaternion q ⟨1, 0, 0, 0⟩ = normalize_quaternion q := by
  rw [calculate_delta_quaternion, quaternion_conjugate]
  congr 1
  refine Quat.ext ?_ ?_ ?_ ?_ <;> simp [quaternion_multiply]

lemma delta_yaw_from_id :
    calculate_delta_quaternion ⟨1 / Real.sqrt 2, 0, 0, 1 / Real.sqrt 2⟩ ⟨1, 0, 0, 0⟩ =
      ⟨1 / Real.sqrt 2, 0, 0, 1 / Real.sqrt 2⟩ := by
  rw [delta_from_id]
  apply normalize_of_unit
  rw [← normalize_yaw]
  exact qnorm_normalize _

lemma bufferAverage_single (d : ℝ × ℝ) : bufferAverage [d] = d := by
  rw [bufferAverage]
  simp

lemma bufferAverage_pair (a b : ℝ × ℝ) :
    bufferAverage [a, b] = ((a.1 + b.1) / 2, (a.2 + b.2) / 2) := by
  rw [bufferAverage]
  norm_num

lemma abs_pi_half_not_small : ¬ (|π / 2| < 0.001) := by
  rw [abs_of_pos (by positivity : (0:ℝ) < π / 2)]
  push_neg
  nlinarith [Real.pi_gt_three]

lemma pushDelta_five_nil (d : ℝ × ℝ) : pushDelta 5 [] d = [d] := rfl

lemma pushDelta_five_one (a d : ℝ × ℝ) : pushDelta 5 [a] d = [a, d] := rfl

lemma centerX_cfgZ : centerX cfgZ = 960 := by
  rw [centerX, show cfgZ.screen_width = 1920 from rfl,
    show Int.fdiv 1920 2 = 960 from by decide]
  norm_num

lemma centerY_cfgZ : centerY cfgZ = 540 := by
  rw [centerY, show cfgZ.screen_height = 1080 from rfl,
    show Int.fdiv 1080 2 = 540 from by decide]
  norm_num

lemma runZ1_eq : runZ1 = ⟨some ⟨1, 0, 0, 0⟩, [], 960, 540⟩ := by
  rw [runZ1]
  simp only [update_position, initMotionState, normalize_id]
  rw [centerX_cfgZ, centerY_cfgZ]

lemma runZ2_eq :
    runZ2 = ⟨some ⟨1 / Real.sqrt 2, 0, 0, 1 / Real.sqrt 2⟩,
             [(50 * π, 0)], 960 + 50 * π, 540⟩ := by
  rw [runZ2, runZ1_eq]
  simp only [update_position, delta_yaw_from_id, yaw_quat_pitch, yaw_quat_yaw,
    normalize_yaw, cfgZ]
  rw [if_pos (show |(0:ℝ)| < 0.001 by norm_num), if_neg abs_pi_half_not_small]
  simp only [neg_zero, zero_mul]
  rw [show π / 2 * (100:ℝ) = 50 * π from by ring]
  rw [pushDelta_five_nil, bufferAverage_single]
  have h1 : clampR 0 (((1920:ℤ) : ℝ) - 1) (960 + 50 * π) = 960 + 50 * π := by
    rw [show ((1920:ℤ) : ℝ) = 1920 from by norm_num]
    exact clampR_of_mem (by nlinarith [Real.pi_pos]) (by nlinarith [Real.pi_lt_four])
  have h2 : clampR 0 (((1080:ℤ) : ℝ) - 1) (540 + 0) = 540 := by
    rw [show ((1080:ℤ) : ℝ) = 1080 from by norm_num, add_zero]
    exact clampR_of_mem (by norm_num) (by norm_num)
  rw [h1, h2]

lemma runZ3_eq :
    runZ3 = ⟨some ⟨1 / Real.sqrt 2, 0, 0, 1 / Real.sqrt 2⟩,
             [(50 * π, 0), (0, 0)], 960 + 75 * π, 540⟩ := by
  rw [runZ3, runZ2_eq]
  have hdq : calculate_delta_quaternion ⟨1 / Real.sqrt 2, 0, 0, 1 / Real.sqrt 2⟩
      ⟨1 / Real.sqrt 2, 0, 0, 1 / Real.sqrt 2⟩ = ⟨1, 0, 0, 0⟩ := by
    have h := delta_of_same ⟨1, 0, 0, 1⟩
    rwa [normalize_yaw] at h
  simp only [update_position, hdq, pitchOf_id, yawOf_id, normalize_yaw, cfgZ]
  rw [if_pos (show |(0:ℝ)| < 0.001 by norm_num)]
  simp only [neg_zero, zero_mul, ite_self]
  rw [pushDelta_five_one, bufferAverage_pair]
  simp only
  rw [show ((50 * π + 0) / 2 : ℝ) = 25 * π from by ring,
    show ((0 + 0) / 2 : ℝ) = (0:ℝ) from by norm_num]
  have h1 : clampR 0 (((1920:ℤ) : ℝ) - 1) (960 + 50 * π + 25 * π) = 960 + 75 * π := by
    rw [show ((1920:ℤ) : ℝ) = 1920 from by norm_num,
      show (960 + 50 * π + 25 * π : ℝ) = 960 + 75 * π from by ring]
    exact clampR_of_mem (by nlinarith [Real.pi_pos]) (by nlinarith [Real.pi_lt_four])
  have h2 : clampR 0 (((1080:ℤ) : ℝ) - 1) (540 + 0) = 540 := by
    rw [show ((1080:ℤ) : ℝ) = 1080 from by norm_num, add_zero]
    exact clampR_of_mem (by norm_num) (by norm_num)
  rw [h1, h2]

lemma runB1_eq : runB1 = ⟨some ⟨1, 0, 0, 0⟩, [], 5, 5⟩ := by
  rw [runB1]
  simp only [update_position, initMotionState, normalize_id]
  rw [centerX, centerY, show cfgB.screen_width = 10 from rfl,
    show cfgB.screen_height = 10 from rfl,
    show Int.fdiv 10 2 = 5 from by decide]
  norm_num

lemma runB2_full :
    update_position cfgB runB1 ⟨1, 0, 0, 1⟩ =
      ((9, 5), ⟨some ⟨1 / Real.sqrt 2, 0, 0, 1 / Real.sqrt 2⟩,
                [(50 * π, 0)], 9, 5⟩) := by
  rw [runB1_eq]
  simp only [update_position, delta_yaw_from_id, yaw_quat_pitch, yaw_quat_yaw,
    normalize_yaw, cfgB]
  rw [if_pos (show |(0:ℝ)| < 0.001 by norm_num), if_neg abs_pi_half_not_small]
  simp only [neg_zero, zero_mul]
  rw [show π / 2 * (100:ℝ) = 50 * π from by ring]
  rw [pushDelta_five_nil, bufferAverage_single]
  have h1 : clampR 0 (((10:ℤ) : ℝ) - 1) (5 + 50 * π) = 9 := by
    rw [show ((10:ℤ) : ℝ) = 10 from by norm_num,
      clampR_of_gt (by norm_num) (by nlinarith [Real.pi_gt_three])]
    norm_num
  have h2 : clampR 0 (((10:ℤ) : ℝ) - 1) (5 + 0) = 5 := by
    rw [show ((10:ℤ) : ℝ) = 10 from by norm_num, add_zero]
    exact clampR_of_mem (by norm_num) (by norm_num)
  rw [h1, h2, show pytrunc 9 = 9 from by
      rw [show (9:ℝ) = ((9:ℤ) : ℝ) from by norm_num, pytrunc_intCast],
    show pytrunc 5 = 5 from by
      rw [show (5:ℝ) = ((5:ℤ) : ℝ) from by norm_num, pytrunc_intCast]]

/-! ### Deadzone lemmas -/

lemma qtsc_deadzone_snap (c : ScreenConfig) (prev : ℝ × ℝ) (w x y z : ℝ)
    (h0 : 0 ≤ c.screen_width) (h1 : 0 ≤ c.screen_height)
    (hd : Real.sqrt
        (((screen_raw c w x y z).1 - c.center_x) * ((screen_raw c w x y z).1 - c.center_x) +
         ((screen_raw c w x y z).2 - c.center_y) * ((screen_raw c w x y z).2 - c.center_y)) < 1) :
    (quaternion_to_screen_coords c prev w x y z false).1 = (c.center_x, c.center_y) := by
  simp only [screen_raw] at hd
  simp only [quaternion_to_screen_coords, Bool.false_eq_true, if_false]
  rw [if_pos hd, if_pos hd,
    clampR_of_mem (by rw [ScreenConfig.center_x]; linarith)
      (by rw [ScreenConfig.center_x]; linarith),
    clampR_of_mem (by rw [ScreenConfig.center_y]; linarith)
      (by rw [ScreenConfig.center_y]; linarith)]

lemma update_deadzone_zeroes (cfg : MotionConfig) (s : MotionState) (p q : Quat)
    (hprev : s.prev_quaternion = some p)
    (hp : |pitchOf (calculate_delta_quaternion (normalize_quaternion q) p).w
        (calculate_delta_quaternion (normalize_quaternion q) p).x
        (calculate_delta_quaternion (normalize_quaternion q) p).y
        (calculate_delta_quaternion (normalize_quaternion q) p).z| < 0.001)
    (hy : |yawOf (calculate_delta_quaternion (normalize_quaternion q) p).w
        (calculate_delta_quaternion (normalize_quaternion q) p).x
        (calculate_delta_quaternion (normalize_quaternion q) p).y
        (calculate_delta_quaternion (normalize_quaternion q) p).z| < 0.001) :
    (update_position cfg s q).2.delta_buffer =
      pushDelta cfg.smoothing_window s.delta_buffer (0, 0) := by
  obtain ⟨pq, buf, sx, sy⟩ := s
  simp only at hprev
  subst hprev
  simp only [update_position]
  rw [if_pos hp, if_pos hy]
  simp only [neg_zero, zero_mul]

lemma update_deadzone_no_motion (cfg : MotionConfig) (s : MotionState) (p q : Quat)
    (hprev : s.prev_quaternion = some p)
    (hp : |pitchOf (calculate_delta_quaternion (normalize_quaternion q) p).w
        (calculate_delta_quaternion (normalize_quaternion q) p).x
        (calculate_delta_quaternion (normalize_quaternion q) p).y
        (calculate_delta_quaternion (normalize_quaternion q) p).z| < 0.001)
    (hy : |yawOf (calculate_delta_quaternion (normalize_quaternion q) p).w
        (calculate_delta_quaternion (normalize_quaternion q) p).x
        (calculate_delta_quaternion (normalize_quaternion q) p).y
        (calculate_delta_quaternion (normalize_quaternion q) p).z| < 0.001)
    (hbuf : ∀ d ∈ s.delta_buffer, d = ((0:ℝ), (0:ℝ)))
    (hx1 : 0 ≤ s.screen_x) (hx2 : s.screen_x ≤ (cfg.screen_width : ℝ) - 1)
    (hy1 : 0 ≤ s.screen_y) (hy2 : s.screen_y ≤ (cfg.screen_height : ℝ) - 1) :
    (update_position cfg s q).2.screen_x = s.screen_x ∧
    (update_position cfg s q).2.screen_y = s.screen_y := by
  obtain ⟨pq, buf, sx, sy⟩ := s
  simp only at hprev hbuf hx1 hx2 hy1 hy2
  subst hprev
  have hzero : ∀ d ∈ pushDelta cfg.smoothing_window buf ((0:ℝ), (0:ℝ)),
      d = ((0:ℝ), (0:ℝ)) := fun d hd => (mem_pushDelta hd).elim (hbuf d) id
  have havg := bufferAverage_zero _ hzero
  simp only [update_position]
  rw [if_pos hp, if_pos hy]
  simp only [neg_zero, zero_mul]
  rw [havg]
  constructor
  · show clampR 0 ((cfg.screen_width : ℝ) - 1) (sx + 0) = sx
    rw [add_zero]
    exact clampR_of_mem hx1 hx2
  · show clampR 0 ((cfg.screen_height : ℝ) - 1) (sy + 0) = sy
    rw [add_zero]
    exact clampR_of_mem hy1 hy2

/-! ### Scenario 1: identity quaternion under the Euler strategy -/

lemma euler800_cx : euler800.center_x = 400 := by
  rw [ScreenConfig.center_x, show euler800.screen_width = 800 from rfl]
  norm_num

lemma euler800_cy : euler800.center_y = 300 := by
  rw [ScreenConfig.center_y, show euler800.screen_height = 600 from rfl]
  norm_num

lemma euler800_tilt : euler800.max_tilt_radians = π / 4 := by
  rw [ScreenConfig.max_tilt_radians, show euler800.max_tilt_degrees = 45 from rfl]
  ring

lemma scenario1_center (prev : ℝ × ℝ) :
    (quaternion_to_screen_coords euler800 prev 1 0 0 0 false).1 = (400, 300) := by
  have hmin : min (π / 4) (0:ℝ) = 0 := min_eq_right (by positivity)
  have hmax : max (-(π / 4)) (0:ℝ) = 0 := max_eq_right (by
    have : (0:ℝ) < π / 4 := by positivity
    linarith)
  simp only [quaternion_to_screen_coords, rollOf_id, pitchOf_id, euler800_tilt,
    euler800_cx, euler800_cy, Bool.false_eq_true, if_false]
  rw [hmin, hmax]
  simp only [zero_mul, add_zero, sub_zero, sub_self, mul_zero, Real.sqrt_zero]
  rw [if_pos (by norm_num : (0:ℝ) < 1),
    show euler800.screen_width = 800 from rfl,
    show euler800.screen_height = 600 from rfl,
    clampR_of_mem (by norm_num : (0:ℝ) ≤ 400) (by norm_num : (400:ℝ) ≤ 800),
    ite_self,
    clampR_of_mem (by norm_num : (0:ℝ) ≤ 300) (by norm_num : (300:ℝ) ≤ 600)]

/-! ### Claim C6 — dead-zone suppression -/

/-- C6 (amended): in absolute mode, any raw point whose distance from the
screen centre is strictly below the dead zone is snapped to the centre; in
delta mode, sub-threshold delta components are zeroed and the zeroed delta is
pushed, but the position still changes by the moving average of previously
buffered deltas — no movement occurs only when every buffered delta is zero.
The identity quaternion under the Euler strategy on an 800×600 screen, 45° max
tilt, smoothing disabled outputs exactly `(400, 300)`. -/
theorem C6_deadzone_amended :
    (∀ (c : ScreenConfig) (prev : ℝ × ℝ) (w x y z : ℝ),
      0 ≤ c.screen_width → 0 ≤ c.screen_height →
      Real.sqrt
        (((screen_raw c w x y z).1 - c.center_x) * ((screen_raw c w x y z).1 - c.center_x) +
         ((screen_raw c w x y z).2 - c.center_y) * ((screen_raw c w x y z).2 - c.center_y)) < 1 →
      (quaternion_to_screen_coords c prev w x y z false).1 = (c.center_x, c.center_y)) ∧
    (∀ (cfg : MotionConfig) (s : MotionState) (p q : Quat),
      s.prev_quaternion = some p →
      |pitchOf (calculate_delta_quaternion (normalize_quaternion q) p).w
        (calculate_delta_quaternion (normalize_quaternion q) p).x
        (calculate_delta_quaternion (normalize_quaternion q) p).y
        (calculate_delta_quaternion (normalize_quaternion q) p).z| < 0.001 →
      |yawOf (calculate_delta_quaternion (normalize_quaternion q) p).w
        (calculate_delta_quaternion (normalize_quaternion q) p).x
        (calculate_delta_quaternion (normalize_quaternion q) p).y
        (calculate_delta_quaternion (normalize_quaternion q) p).z| < 0.001 →
      (update_position cfg s q).2.delta_buffer =
        pushDelta cfg.smoothing_window s.delta_buffer (0, 0)) ∧
    (∀ (cfg : MotionConfig) (s : MotionState) (p q : Quat),
      s.prev_quaternion = some p →
      |pitchOf (calculate_delta_quaternion (normalize_quaternion q) p).w
        (calculate_delta_quaternion (normalize_quaternion q) p).x
        (calculate_delta_quaternion (normalize_quaternion q) p).y
        (calculate_delta_quaternion (normalize_quaternion q) p).z| < 0.001 →
      |yawOf (calculate_delta_quaternion (normalize_quaternion q) p).w
        (calculate_delta_quaternion (normalize_quaternion q) p).x
        (calculate_delta_quaternion (normalize_quaternion q) p).y
        (calculate_delta_quaternion (normalize_quaternion q) p).z| < 0.001 →
      (∀ d ∈ s.delta_buffer, d = ((0:ℝ), (0:ℝ))) →
      0 ≤ s.screen_x → s.screen_x ≤ (cfg.screen_width : ℝ) - 1 →
      0 ≤ s.screen_y → s.screen_y ≤ (cfg.screen_height : ℝ) - 1 →
      (update_position cfg s q).2.screen_x = s.screen_x ∧
      (update_position cfg s q).2.screen_y = s.screen_y) ∧
    (∀ prev : ℝ × ℝ,
      (quaternion_to_screen_coords euler800 prev 1 0 0 0 false).1 = (400, 300)) :=
  ⟨qtsc_deadzone_snap, update_deadzone_zeroes, update_deadzone_no_motion, scenario1_center⟩

theorem C6_deadzone_amended_witness :
    ((⟨some ⟨1, 0, 0, 0⟩, [], 960, 540⟩ : MotionState).prev_quaternion
        = some ⟨1, 0, 0, 0⟩) ∧
    |pitchOf (calculate_delta_quaternion (normalize_quaternion ⟨1, 0, 0, 0⟩) ⟨1, 0, 0, 0⟩).w
      (calculate_delta_quaternion (normalize_quaternion ⟨1, 0, 0, 0⟩) ⟨1, 0, 0, 0⟩).x
      (calculate_delta_quaternion (normalize_quaternion ⟨1, 0, 0, 0⟩) ⟨1, 0, 0, 0⟩).y
      (calculate_delta_quaternion (normalize_quaternion ⟨1, 0, 0, 0⟩) ⟨1, 0, 0, 0⟩).z| < 0.001 ∧
    |yawOf (calculate_delta_quaternion (normalize_quaternion ⟨1, 0, 0, 0⟩) ⟨1, 0, 0, 0⟩).w
      (calculate_delta_quaternion (normalize_quaternion ⟨1, 0, 0, 0⟩) ⟨1, 0, 0, 0⟩).x
      (calculate_delta_quaternion (normalize_quaternion ⟨1, 0, 0, 0⟩) ⟨1, 0, 0, 0⟩).y
      (calculate_delta_quaternion (normalize_quaternion ⟨1, 0, 0, 0⟩) ⟨1, 0, 0, 0⟩).z| < 0.001 ∧
    (update_position cfgZ ⟨some ⟨1, 0, 0, 0⟩, [], 960, 540⟩ ⟨1, 0, 0, 0⟩).2.delta_buffer =
      pushDelta cfgZ.smoothing_window [] (0, 0) := by
  have hdq : calculate_delta_quaternion (normalize_quaternion ⟨1, 0, 0, 0⟩) ⟨1, 0, 0, 0⟩
      = ⟨1, 0, 0, 0⟩ := by
    rw [normalize_id, delta_from_id, normalize_id]
  have hp : |pitchOf (calculate_delta_quaternion (normalize_quaternion ⟨1, 0, 0, 0⟩) ⟨1, 0, 0, 0⟩).w
      (calculate_delta_quaternion (normalize_quaternion ⟨1, 0, 0, 0⟩) ⟨1, 0, 0, 0⟩).x
      (calculate_delta_quaternion (normalize_quaternion ⟨1, 0, 0, 0⟩) ⟨1, 0, 0, 0⟩).y
      (calculate_delta_quaternion (normalize_quaternion ⟨1, 0, 0, 0⟩) ⟨1, 0, 0, 0⟩).z| < 0.001 := by
    simp only [hdq]
    rw [pitchOf_id]
    norm_num
  have hy : |yawOf (calculate_delta_quaternion (normalize_quaternion ⟨1, 0, 0, 0⟩) ⟨1, 0, 0, 0⟩).w
      (calculate_delta_quaternion (normalize_quaternion ⟨1, 0, 0, 0⟩) ⟨1, 0, 0, 0⟩).x
      (calculate_delta_quaternion (normalize_quaternion ⟨1, 0, 0, 0⟩) ⟨1, 0, 0, 0⟩).y
      (calculate_delta_quaternion (normalize_quaternion ⟨1, 0, 0, 0⟩) ⟨1, 0, 0, 0⟩).z| < 0.001 := by
    simp only [hdq]
    rw [yawOf_id]
    norm_num
  exact ⟨rfl, hp, hy,
    C6_deadzone_amended.2.1 cfgZ ⟨some ⟨1, 0, 0, 0⟩, [], 960, 540⟩ ⟨1, 0, 0, 0⟩ ⟨1, 0, 0, 0⟩
      rfl hp hy⟩

/-- C6 counterexample: in the `cfgZ` run the third sample repeats `(1,0,0,1)`,
so its delta quaternion is the identity; pitch and yaw are 0, below the 0.001
dead zone, and the zeroed delta `(0,0)` is pushed — yet the position moves
from `960 + 50π` to `960 + 75π`, because the moving average still contains the
previous sample's large delta.  This falsifies "delta components below the
deadzone threshold are zeroed so no movement occurs". -/
theorem C6_deadzone_counterexample :
    calculate_delta_quaternion ⟨1 / Real.sqrt 2, 0, 0, 1 / Real.sqrt 2⟩
        ⟨1 / Real.sqrt 2, 0, 0, 1 / Real.sqrt 2⟩ = ⟨1, 0, 0, 0⟩ ∧
    |pitchOf 1 0 0 0| < 0.001 ∧ |yawOf 1 0 0 0| < 0.001 ∧
    runZ3.delta_buffer = [(50 * π, 0), (0, 0)] ∧
    runZ2.screen_x = 960 + 50 * π ∧
    runZ3.screen_x = 960 + 75 * π ∧
    runZ3.screen_x ≠ runZ2.screen_x := by
  refine ⟨?_, ?_, ?_, ?_, ?_, ?_, ?_⟩
  · have h := delta_of_same ⟨1, 0, 0, 1⟩
    rwa [normalize_yaw] at h
  · rw [pitchOf_id]; norm_num
  · rw [yawOf_id]; norm_num
  · rw [runZ3_eq]
  · rw [runZ2_eq]
  · rw [runZ3_eq]
  · rw [runZ3_eq, runZ2_eq]
    simp only
    intro h
    have := Real.pi_pos
    linarith

/-! ### Claim C2 — boundary clamping -/

/-- C2 (amended): the post-processing pipeline of the projection strategies
clamps each axis independently to `[0, width] × [0, height]`, so every output
lies in that box and a pre-clamp coordinate beyond a bound lands exactly on
that bound; the delta tracker `update_position`, however, clamps its position
to `[0, width-1] × [0, height-1]`, so a pre-clamp position beyond the right or
bottom edge lands on `width-1` / `height-1` — inside `[0, width] × [0, height]`
but not on its boundary. -/
theorem C2_clamping_amended :
    (∀ (c : CompareConfig) (prev : ℝ × ℝ) (sx sy : ℝ) (us : Bool),
      0 ≤ c.screen_width → 0 ≤ c.screen_height →
      ((apply_post_processing c prev sx sy us).1 =
        (clampR 0 c.screen_width (post_raw c prev sx sy us).1.1,
         clampR 0 c.screen_height (post_raw c prev sx sy us).1.2) ∧
       (0 ≤ (apply_post_processing c prev sx sy us).1.1 ∧
        (apply_post_processing c prev sx sy us).1.1 ≤ c.screen_width ∧
        0 ≤ (apply_post_processing c prev sx sy us).1.2 ∧
        (apply_post_processing c prev sx sy us).1.2 ≤ c.screen_height) ∧
       (c.screen_width < (post_raw c prev sx sy us).1.1 →
         (apply_post_processing c prev sx sy us).1.1 = c.screen_width) ∧
       ((post_raw c prev sx sy us).1.1 < 0 →
         (apply_post_processing c prev sx sy us).1.1 = 0) ∧
       (c.screen_height < (post_raw c prev sx sy us).1.2 →
         (apply_post_processing c prev sx sy us).1.2 = c.screen_height) ∧
       ((post_raw c prev sx sy us).1.2 < 0 →
         (apply_post_processing c prev sx sy us).1.2 = 0))) ∧
    (∀ (cfg : MotionConfig) (s : MotionState) (p q : Quat),
      s.prev_quaternion = some p →
      1 ≤ cfg.screen_width → 1 ≤ cfg.screen_height →
      (0 ≤ (update_position cfg s q).2.screen_x ∧
       (update_position cfg s q).2.screen_x ≤ (cfg.screen_width : ℝ) - 1 ∧
       0 ≤ (update_position cfg s q).2.screen_y ∧
       (update_position cfg s q).2.screen_y ≤ (cfg.screen_height : ℝ) - 1) ∧
      ((cfg.screen_width : ℝ) - 1 <
          s.screen_x + (bufferAverage (update_position cfg s q).2.delta_buffer).1 →
        (update_position cfg s q).2.screen_x = (cfg.screen_width : ℝ) - 1) ∧
      ((cfg.screen_height : ℝ) - 1 <
          s.screen_y + (bufferAverage (update_position cfg s q).2.delta_buffer).2 →
        (update_position cfg s q).2.screen_y = (cfg.screen_height : ℝ) - 1)) := by
  constructor
  · intro c prev sx sy us h0 h1
    refine ⟨rfl, ⟨(clampR_mem h0).1, (clampR_mem h0).2, (clampR_mem h1).1,
      (clampR_mem h1).2⟩, ?_, ?_, ?_, ?_⟩
    · intro h
      exact clampR_of_gt h0 h
    · intro h
      exact clampR_of_lt h0 h
    · intro h
      exact clampR_of_gt h1 h
    · intro h
      exact clampR_of_lt h1 h
  · intro cfg s p q hprev hW hH
    have hW' : (0:ℝ) ≤ (cfg.screen_width : ℝ) - 1 := by
      have : ((1:ℤ) : ℝ) ≤ (cfg.screen_width : ℝ) := by exact_mod_cast hW
      push_cast at this
      linarith
    have hH' : (0:ℝ) ≤ (cfg.screen_height : ℝ) - 1 := by
      have : ((1:ℤ) : ℝ) ≤ (cfg.screen_height : ℝ) := by exact_mod_cast hH
      push_cast at this
      linarith
    obtain ⟨pq, buf, sx, sy⟩ := s
    simp only at hprev
    subst hprev
    simp only [update_position]
    refine ⟨⟨(clampR_mem hW').1, (clampR_mem hW').2, (clampR_mem hH').1,
      (clampR_mem hH').2⟩, ?_, ?_⟩
    · intro h
      exact clampR_of_gt hW' h
    · intro h
      exact clampR_of_gt hH' h

theorem C2_clamping_amended_witness :
    (0:ℝ) ≤ cmp100.screen_width ∧ (0:ℝ) ≤ cmp100.screen_height ∧
    (0 ≤ (apply_post_processing cmp100 (0, 0) 200 50 false).1.1 ∧
     (apply_post_processing cmp100 (0, 0) 200 50 false).1.1 ≤ cmp100.screen_width ∧
     0 ≤ (apply_post_processing cmp100 (0, 0) 200 50 false).1.2 ∧
     (apply_post_processing cmp100 (0, 0) 200 50 false).1.2 ≤ cmp100.screen_height) := by
  have h0 : (0:ℝ) ≤ cmp100.screen_width := by norm_num [cmp100]
  have h1 : (0:ℝ) ≤ cmp100.screen_height := by norm_num [cmp100]
  exact ⟨h0, h1, (C2_clamping_amended.1 cmp100 (0, 0) 200 50 false h0 h1).2.1⟩

/-- C2 counterexample: on a 10×10 screen the second sample drives the raw
position to `5 + 50π > 10`, outside `[0, width]`, but `update_position`
returns x = 9 — the code clamps to `width - 1 = 9`, which is not the nearest
boundary (10) of `[0, width]`. -/
theorem C2_clamping_counterexample :
    (cfgB.screen_width : ℝ) <
      runB1.screen_x +
        (bufferAverage (update_position cfgB runB1 ⟨1, 0, 0, 1⟩).2.delta_buffer).1 ∧
    (update_position cfgB runB1 ⟨1, 0, 0, 1⟩).1.1 = 9 ∧
    (9 : ℤ) ≠ 10 ∧ (9 : ℤ) ≠ 0 := by
  refine ⟨?_, ?_, by norm_num, by norm_num⟩
  · rw [runB2_full, runB1_eq]
    simp only
    rw [bufferAverage_single]
    simp only
    rw [show (cfgB.screen_width : ℝ) = 10 from by norm_num [cfgB]]
    nlinarith [Real.pi_gt_three]
  · rw [runB2_full]

/-! ### Bounds on the inverse tangent -/

lemma arctan_nonneg {x : ℝ} (h : 0 ≤ x) : 0 ≤ Real.arctan x := by
  rw [← Real.arctan_zero]
  exact Real.arctan_strictMono.monotone h

lemma arctan_le_self {x : ℝ} (h : 0 ≤ x) : Real.arctan x ≤ x := by
  have h2 := Real.le_tan (arctan_nonneg h) (Real.arctan_lt_pi_div_two x)
  rwa [Real.tan_arctan] at h2

lemma arctan_le_add_of_le {a b : ℝ} (ha : 0 ≤ a) (hab : a ≤ b) :
    Real.arctan b ≤ Real.arctan a + (b - a) := by
  have hb : 0 ≤ b := ha.trans hab
  have hden : (0:ℝ) < 1 + a * b := by nlinarith
  have hc0 : 0 ≤ (b - a) / (1 + a * b) := div_nonneg (by linarith) hden.le
  have hmul : a * ((b - a) / (1 + a * b)) < 1 := by
    rw [← mul_div_assoc, div_lt_one hden]
    nlinarith [sq_nonneg a]
  have key := Real.arctan_add hmul
  have harg : (a + (b - a) / (1 + a * b)) / (1 - a * ((b - a) / (1 + a * b))) = b := by
    rw [div_eq_iff (by nlinarith [hmul] : (1 : ℝ) - a * ((b - a) / (1 + a * b)) ≠ 0)]
    field_simp
    ring
  rw [harg] at key
  have h1 : Real.arctan ((b - a) / (1 + a * b)) ≤ (b - a) / (1 + a * b) :=
    arctan_le_self hc0
  have h2 : (b - a) / (1 + a * b) ≤ b - a := by
    apply div_le_self (by linarith)
    nlinarith
  linarith [key, h1, h2]

lemma arctan_sqrt3_inv : Real.arctan (1 / Real.sqrt 3) = π / 6 := by
  rw [← Real.tan_pi_div_six]
  exact Real.arctan_tan (by linarith [Real.pi_pos]) (by linarith [Real.pi_pos])

lemma sqrt3_inv_eq : (1 : ℝ) / Real.sqrt 3 = Real.sqrt (1 / 3) := by
  rw [one_div, ← Real.sqrt_inv]
  norm_num

lemma sqrt3_inv_lt_ratio : (1 : ℝ) / Real.sqrt 3 < 0.500388 / 0.865838 := by
  rw [sqrt3_inv_eq, Real.sqrt_lt' (by norm_num : (0:ℝ) < 0.500388 / 0.865838)]
  norm_num

lemma sqrt3_inv_ge : (0.57735 : ℝ) ≤ 1 / Real.sqrt 3 := by
  rw [sqrt3_inv_eq, Real.le_sqrt (by norm_num) (by norm_num)]
  norm_num

/-- The roll of the scenario-2 quaternion, bracketed: strictly above `π/6` and
at most `π/6 + 0.0006`. -/
lemma roll5_bracket :
    π / 6 < Real.arctan (0.500388 / 0.865838) ∧
    Real.arctan (0.500388 / 0.865838) ≤ π / 6 + 0.0006 := by
  constructor
  · rw [← arctan_sqrt3_inv]
    exact Real.arctan_strictMono sqrt3_inv_lt_ratio
  · have h := arctan_le_add_of_le (by positivity : (0:ℝ) ≤ 1 / Real.sqrt 3)
      sqrt3_inv_lt_ratio.le
    rw [arctan_sqrt3_inv] at h
    have hδ : (0.500388 / 0.865838 : ℝ) - 1 / Real.sqrt 3 ≤ 0.0006 := by
      have := sqrt3_inv_ge
      have hr : (0.500388 / 0.865838 : ℝ) ≤ 0.57793 := by norm_num
      linarith
    linarith

/-! ### Scenario 2: 30° roll under the Euler strategy -/

lemma euler800_sens_x : euler800.sensitivity_x = 1600 / π := by
  rw [ScreenConfig.sensitivity_x, euler800_tilt,
    show euler800.screen_width = 800 from rfl,
    show (2:ℝ) * (π / 4) = π / 2 from by ring, div_div_eq_mul_div]
  norm_num

lemma roll5_eq : rollOf 0.966 0.259 0 0 = Real.arctan (0.500388 / 0.865838) := by
  rw [rollOf, atan2,
    if_pos (by norm_num : (0:ℝ) < 1 - 2 * (0.259 * 0.259 + 0 * 0))]
  norm_num

lemma pitch5_eq : pitchOf 0.966 0.259 0 0 = 0 := by
  rw [pitchOf]
  norm_num

lemma scenario2_eval (prev : ℝ × ℝ) :
    (quaternion_to_screen_coords euler800 prev 0.966 0.259 0 0 false).1 =
      (400 + Real.arctan (0.500388 / 0.865838) * (1600 / π), 300) := by
  have hb := roll5_bracket
  have hπ1 : (3.141592 : ℝ) < π := Real.pi_gt_d6
  have hπ2 : π < 3.141593 := Real.pi_lt_d6
  have hπ0 : (0:ℝ) < π := Real.pi_pos
  set R := Real.arctan (0.500388 / 0.865838) with hR
  have hpos : 0 < R := by
    have : (0:ℝ) < π / 6 := by linarith
    linarith [hb.1]
  have hclamp : R < π / 4 := by linarith [hb.2]
  have hmin : min (π / 4) R = R := min_eq_right hclamp.le
  have hmax : max (-(π / 4)) R = R := max_eq_right (by linarith)
  have hmin0 : min (π / 4) (0:ℝ) = 0 := min_eq_right (by linarith)
  have hmax0 : max (-(π / 4)) (0:ℝ) = 0 := max_eq_right (by linarith)
  simp only [quaternion_to_screen_coords, roll5_eq, pitch5_eq, euler800_tilt,
    euler800_cx, euler800_cy, euler800_sens_x, ← hR, Bool.false_eq_true, if_false]
  rw [hmin, hmax, hmin0, hmax0]
  simp only [zero_mul, sub_zero, sub_self, mul_zero, zero_add]
  rw [show (400:ℝ) + R * (1600 / π) - 400 = R * (1600 / π) from by ring]
  have hdisteq : Real.sqrt (R * (1600 / π) * (R * (1600 / π)) + 0)
      = R * (1600 / π) := by
    rw [add_zero, Real.sqrt_mul_self (by positivity)]
  rw [hdisteq]
  have hge : ¬ (R * (1600 / π) < 1) := by
    push_neg
    rw [← mul_div_assoc, le_div_iff hπ0]
    nlinarith [hb.1]
  rw [if_neg hge, if_neg hge]
  have hhi : R * (1600 / π) < 400 := by
    rw [← mul_div_assoc, div_lt_iff hπ0]
    nlinarith
  rw [show euler800.screen_height = (600:ℝ) from rfl,
    clampR_of_mem (by positivity) (by
      show (400:ℝ) + R * (1600 / π) ≤ 800
      linarith),
    clampR_of_mem (by norm_num : (0:ℝ) ≤ 300) (by norm_num : (300:ℝ) ≤ 600)]

/-- C5: the quaternion `(0.966, 0.259, 0, 0)` under the Euler strategy with an
800×600 screen, 45° max tilt and smoothing disabled has roll within 0.001 of
0.5236 rad, below the 0.7854-rad clamp, and yields
`screen_x = 400 + roll · 800/(2·0.7854-ish) ` (with the exact clamp `π/4`),
numerically within 0.3 of 666.7, and `screen_y = 300` exactly. -/
theorem C5_scenario2 (prev : ℝ × ℝ) :
    rollOf 0.966 0.259 0 0 < π / 4 ∧
    |rollOf 0.966 0.259 0 0 - 0.5236| < 0.001 ∧
    (quaternion_to_screen_coords euler800 prev 0.966 0.259 0 0 false).1.1 =
      400 + rollOf 0.966 0.259 0 0 * (800 / (2 * (π / 4))) ∧
    |(quaternion_to_screen_coords euler800 prev 0.966 0.259 0 0 false).1.1 - 666.7| < 0.3 ∧
    (quaternion_to_screen_coords euler800 prev 0.966 0.259 0 0 false).1.2 = 300 := by
  have hb := roll5_bracket
  have hπ1 : (3.141592 : ℝ) < π := Real.pi_gt_d6
  have hπ2 : π < 3.141593 := Real.pi_lt_d6
  have hπ0 : (0:ℝ) < π := Real.pi_pos
  have heval := scenario2_eval prev
  have h8 : (800 : ℝ) / (2 * (π / 4)) = 1600 / π := by
    rw [show (2:ℝ) * (π / 4) = π / 2 from by ring, div_div_eq_mul_div]
    norm_num
  set R := Real.arctan (0.500388 / 0.865838) with hR
  have hT1 : (666.66 : ℝ) < 400 + R * (1600 / π) := by
    have h : (266.66 : ℝ) < R * (1600 / π) := by
      rw [← mul_div_assoc, lt_div_iff hπ0]
      nlinarith [hb.1]
    linarith
  have hT2 : 400 + R * (1600 / π) < 666.98 := by
    have h : R * (1600 / π) < 266.98 := by
      rw [← mul_div_assoc, div_lt_iff hπ0]
      nlinarith [hb.2]
    linarith
  refine ⟨?_, ?_, ?_, ?_, ?_⟩
  · rw [roll5_eq, ← hR]
    linarith [hb.2]
  · rw [roll5_eq, ← hR]
    rw [abs_lt]
    constructor <;> nlinarith [hb.1, hb.2]
  · rw [heval, roll5_eq, ← hR, h8]
  · rw [heval]
    rw [abs_lt]
    constructor
    · simp only
      linarith
    · simp only
      linarith
  · rw [heval]

/-! ### The hybrid strategy on a concrete input -/

lemma cmp100_cx : cmp100.center_x = 50 := by
  rw [CompareConfig.center_x, show cmp100.screen_width = 100 from rfl]
  norm_num

lemma cmp100_cy : cmp100.center_y = 50 := by
  rw [CompareConfig.center_y, show cmp100.screen_height = 100 from rfl]
  norm_num

lemma cmp100_tilt : cmp100.max_tilt_radians = π / 4 := by
  rw [CompareConfig.max_tilt_radians, show cmp100.max_tilt_degrees = 45 from rfl]
  ring

lemma cmp100_sens_x : cmp100.sensitivity_x = 200 / π := by
  rw [CompareConfig.sensitivity_x, cmp100_tilt,
    show cmp100.screen_width = 100 from rfl,
    show (2:ℝ) * (π / 4) = π / 2 from by ring, div_div_eq_mul_div]
  norm_num

lemma cmp100_sens_y : cmp100.sensitivity_y = 200 / π := by
  rw [CompareConfig.sensitivity_y, cmp100_tilt,
    show cmp100.screen_height = 100 from rfl,
    show (2:ℝ) * (π / 4) = π / 2 from by ring, div_div_eq_mul_div]
  norm_num

lemma roll7_eq : rollOf 0.7 0.01 0.01 0.7 = Real.arctan (0.028 / 0.9996) := by
  rw [rollOf, atan2,
    if_pos (by norm_num : (0:ℝ) < 1 - 2 * (0.01 * 0.01 + 0.01 * 0.01))]
  norm_num

lemma pitch7_eq : pitchOf 0.7 0.01 0.01 0.7 = 0 := by
  rw [pitchOf]
  norm_num

lemma arctan7_pos : 0 < Real.arctan (0.028 / 0.9996) := by
  rw [← Real.arctan_zero]
  exact Real.arctan_strictMono (by norm_num)

lemma arctan7_small : Real.arctan (0.028 / 0.9996) * (200 / π) < 10 := by
  have h1 : Real.arctan (0.028 / 0.9996) ≤ 0.028 / 0.9996 :=
    arctan_le_self (by norm_num)
  have h2 : (0.028 / 0.9996 : ℝ) ≤ 0.02802 := by norm_num
  have hπ0 := Real.pi_pos
  have hπ1 := Real.pi_gt_three
  rw [← mul_div_assoc, div_lt_iff hπ0]
  nlinarith

lemma arctan7_lt_clamp : Real.arctan (0.028 / 0.9996) < π / 4 := by
  have h1 : Real.arctan (0.028 / 0.9996) ≤ 0.028 / 0.9996 :=
    arctan_le_self (by norm_num)
  have h2 : (0.028 / 0.9996 : ℝ) ≤ 0.02802 := by norm_num
  have := Real.pi_gt_three
  nlinarith

lemma azim7_ge : π / 4 ≤ Real.arctan (0.9802 / 0.0198) := by
  rw [← Real.arctan_one]
  exact Real.arctan_strictMono.monotone (by norm_num)

lemma euler7_raw_eval :
    euler_raw cmp100 0.7 0.01 0.01 0.7 =
      (50 + Real.arctan (0.028 / 0.9996) * (200 / π), 50) := by
  have hclamp := arctan7_lt_clamp
  have hpos := arctan7_pos
  have hπ0 := Real.pi_pos
  simp only [euler_raw, roll7_eq, pitch7_eq, cmp100_tilt, cmp100_cx, cmp100_cy,
    cmp100_sens_x, cmp100_sens_y]
  rw [min_eq_right hclamp.le, max_eq_right (by linarith),
    min_eq_right (by linarith : (0:ℝ) ≤ π / 4),
    max_eq_right (by linarith : -(π / 4) ≤ (0:ℝ))]
  norm_num

lemma euler7_eval :
    (euler_method cmp100 (50, 50) 0.7 0.01 0.01 0.7 false).1 = (50, 50) := by
  have hpos := arctan7_pos
  have hπ0 := Real.pi_pos
  simp only [euler_method, euler7_raw_eval, apply_post_processing, post_raw,
    cmp100_cx, cmp100_cy, Bool.false_eq_true, if_false]
  rw [show (50:ℝ) + Real.arctan (0.028 / 0.9996) * (200 / π) - 50 =
      Real.arctan (0.028 / 0.9996) * (200 / π) from by ring, sub_self]
  rw [show Real.arctan (0.028 / 0.9996) * (200 / π) *
        (Real.arctan (0.028 / 0.9996) * (200 / π)) + 0 * 0 =
      Real.arctan (0.028 / 0.9996) * (200 / π) *
        (Real.arctan (0.028 / 0.9996) * (200 / π)) from by ring]
  rw [Real.sqrt_mul_self (mul_nonneg hpos.le (by positivity))]
  rw [if_pos arctan7_small, if_pos arctan7_small]
  rw [show cmp100.screen_width = (100:ℝ) from rfl,
    show cmp100.screen_height = (100:ℝ) from rfl,
    clampR_of_mem (by norm_num : (0:ℝ) ≤ 50) (by norm_num : (50:ℝ) ≤ 100)]

lemma sphere7_raw_eval :
    spherical_raw cmp100 0.7 0.01 0.01 0.7 = (100, 50) := by
  have hπ0 := Real.pi_pos
  simp only [spherical_raw, cmp100_tilt, cmp100_cx, cmp100_cy,
    cmp100_sens_x, cmp100_sens_y]
  rw [show atan2 (2 * (0.7 * 0.7 + 0.01 * 0.01)) (1 - 2 * (0.01 * 0.01 + 0.7 * 0.7))
      = Real.arctan (0.9802 / 0.0198) from by
        rw [atan2, if_pos (by norm_num : (0:ℝ) < 1 - 2 * (0.01 * 0.01 + 0.7 * 0.7))]
        norm_num]
  rw [show (2 * (0.7 * 0.01 - 0.7 * 0.01) : ℝ) = 0 from by norm_num]
  rw [if_neg (by norm_num : ¬ ((1:ℝ) ≤ |(0:ℝ)|)), Real.arcsin_zero]
  rw [min_eq_left azim7_ge, max_eq_right (by linarith : -(π / 4) ≤ π / 4),
    min_eq_right (by linarith : (0:ℝ) ≤ π / 4),
    max_eq_right (by linarith : -(π / 4) ≤ (0:ℝ))]
  rw [show (π / 4) * (200 / π) = (50:ℝ) from by
    field_simp
    ring]
  norm_num

lemma sphere7_eval :
    (spherical_method cmp100 (50, 50) 0.7 0.01 0.01 0.7 false).1 = (100, 50) := by
  simp only [spherical_method, sphere7_raw_eval, apply_post_processing, post_raw,
    cmp100_cx, cmp100_cy, Bool.false_eq_true, if_false]
  rw [show (100:ℝ) - 50 = 50 from by norm_num, sub_self]
  rw [show (50:ℝ) * 50 + 0 * 0 = 50 * 50 from by ring,
    Real.sqrt_mul_self (by norm_num : (0:ℝ) ≤ 50)]
  rw [if_neg (by norm_num : ¬ ((50:ℝ) < 10)), if_neg (by norm_num : ¬ ((50:ℝ) < 10))]
  rw [show cmp100.screen_width = (100:ℝ) from rfl,
    show cmp100.screen_height = (100:ℝ) from rfl,
    clampR_of_mem (by norm_num : (0:ℝ) ≤ 100) (by norm_num : (100:ℝ) ≤ 100),
    clampR_of_mem (by norm_num : (0:ℝ) ≤ 50) (by norm_num : (50:ℝ) ≤ 100)]

lemma hybrid7_eval :
    (hybrid_method cmp100 (50, 50) 0.7 0.01 0.01 0.7 false).1 = (60, 50) := by
  simp only [hybrid_method, euler7_eval, sphere7_eval, apply_post_processing,
    post_raw, cmp100_cx, cmp100_cy, Bool.false_eq_true, if_false]
  rw [show ((50:ℝ) * 0.8 + 100 * 0.2) = 60 from by norm_num,
    show ((50:ℝ) * 0.8 + 50 * 0.2) = 50 from by norm_num]
  rw [show (60:ℝ) - 50 = 10 from by norm_num, sub_self]
  rw [show (10:ℝ) * 10 + 0 * 0 = 10 * 10 from by ring,
    Real.sqrt_mul_self (by norm_num : (0:ℝ) ≤ 10)]
  rw [if_neg (by norm_num : ¬ ((10:ℝ) < 10)), if_neg (by norm_num : ¬ ((10:ℝ) < 10))]
  rw [show cmp100.screen_width = (100:ℝ) from rfl,
    show cmp100.screen_height = (100:ℝ) from rfl,
    clampR_of_mem (by norm_num : (0:ℝ) ≤ 60) (by norm_num : (60:ℝ) ≤ 100),
    clampR_of_mem (by norm_num : (0:ℝ) ≤ 50) (by norm_num : (50:ℝ) ≤ 100)]

lemma claim7_eval :
    (hybrid_of_raw_claim cmp100 (50, 50) 0.7 0.01 0.01 0.7 false).1 =
      (60 + Real.arctan (0.028 / 0.9996) * (200 / π) * 0.8, 50) := by
  have hpos := arctan7_pos
  have hsmall := arctan7_small
  have hπ0 := Real.pi_pos
  have hC0 : (0:ℝ) ≤ Real.arctan (0.028 / 0.9996) * (200 / π) :=
    mul_nonneg hpos.le (by positivity)
  simp only [hybrid_of_raw_claim, euler7_raw_eval, sphere7_raw_eval,
    apply_post_processing, post_raw, cmp100_cx, cmp100_cy,
    Bool.false_eq_true, if_false]
  rw [show ((50:ℝ) + Real.arctan (0.028 / 0.9996) * (200 / π)) * 0.8 + 100 * 0.2 =
      60 + Real.arctan (0.028 / 0.9996) * (200 / π) * 0.8 from by ring,
    show ((50:ℝ) * 0.8 + 50 * 0.2) = 50 from by norm_num]
  rw [show (60:ℝ) + Real.arctan (0.028 / 0.9996) * (200 / π) * 0.8 - 50 =
      10 + Real.arctan (0.028 / 0.9996) * (200 / π) * 0.8 from by ring, sub_self]
  rw [show (10 + Real.arctan (0.028 / 0.9996) * (200 / π) * 0.8) *
        (10 + Real.arctan (0.028 / 0.9996) * (200 / π) * 0.8) + 0 * 0 =
      (10 + Real.arctan (0.028 / 0.9996) * (200 / π) * 0.8) *
        (10 + Real.arctan (0.028 / 0.9996) * (200 / π) * 0.8) from by ring,
    Real.sqrt_mul_self (by linarith)]
  rw [if_neg (by push_neg; linarith), if_neg (by push_neg; linarith)]
  rw [show cmp100.screen_width = (100:ℝ) from rfl,
    show cmp100.screen_height = (100:ℝ) from rfl,
    clampR_of_mem (by linarith) (by linarith),
    clampR_of_mem (by norm_num : (0:ℝ) ≤ 50) (by norm_num : (50:ℝ) ≤ 100)]

/-! ### Claim C7 — the hybrid blend -/

/-- C7 (amended): the hybrid strategy equals the post-processing (deadzone,
optional smoothing, clamping) of the fixed weighted blend
`0.8 · Euler + 0.2 · Spherical`, where the blended values are the Euler and
spherical results **with** their own post-processing (deadzone and clamping,
smoothing disabled) already applied — not the raw pre-post-processing
candidates. -/
theorem C7_hybrid_amended (c : CompareConfig) (prev : ℝ × ℝ) (w x y z : ℝ)
    (us : Bool) :
    hybrid_method c prev w x y z us =
      apply_post_processing c prev
        ((euler_method c prev w x y z false).1.1 * 0.8 +
         (spherical_method c prev w x y z false).1.1 * 0.2)
        ((euler_method c prev w x y z false).1.2 * 0.8 +
         (spherical_method c prev w x y z false).1.2 * 0.2) us := rfl

/-- C7 counterexample: at the quaternion `(0.7, 0.01, 0.01, 0.7)` with the
default converter the code's hybrid result is exactly `(60, 50)` (the Euler
branch is deadzone-snapped to the centre before blending), while blending the
raw pre-post-processing candidates as the claim words it yields
`(60 + 0.8·arctan(0.028/0.9996)·200/π, 50) ≠ (60, 50)`. -/
theorem C7_hybrid_counterexample :
    (hybrid_method cmp100 (50, 50) 0.7 0.01 0.01 0.7 false).1 ≠
      (hybrid_of_raw_claim cmp100 (50, 50) 0.7 0.01 0.01 0.7 false).1 := by
  rw [hybrid7_eval, claim7_eval]
  intro h
  have h1 := congrArg Prod.fst h
  simp only at h1
  have hC : 0 < Real.arctan (0.028 / 0.9996) * (200 / π) :=
    mul_pos arctan7_pos (by positivity)
  nlinarith [hC]

end
